import Mathlib

/-
Verification of the Serial Studio plugin broadcast server
(src/app/src/Plugins/Server.cpp) against its natural-language
specification.

The server state is a shallow embedding of the member data of
Plugins::Server: the enabled flag (m_enabled), the list of client
sockets (m_sockets, a QVector of possibly-null QTcpSocket pointers),
and the pending frame buffer (m_frames).  Each slot/handler of the
C++ class becomes a Lean function on this state; side effects on the
outside world (bytes written to a socket, bytes forwarded to the I/O
manager, log lines) are returned as explicit output lists.
-/

/-- A finalized JSON frame.  The server treats frames as opaque
serializable records; we model a frame by the compact JSON text that
frame.serialize() produces. -/
structure Frame where
  serialized : String
deriving Repr, DecidableEq

/-- One accepted client socket (a QTcpSocket owned by the server).
The id models pointer identity; writable models isWritable(); readBuf
models the bytes currently available for reading (what readAll()
would return). -/
structure Socket where
  id : Nat
  writable : Bool
  readBuf : List Nat
deriving Repr, DecidableEq

/-- The member data of Plugins::Server.  m_sockets holds possibly-null
pointers, hence entries of type Option Socket.  nextId is the
allocator counter used to give fresh identities to accepted
connections. -/
structure ServerState where
  enabled : Bool
  sockets : List (Option Socket)
  frames : List Frame
  nextId : Nat
deriving Repr, DecidableEq

namespace Plugins.Server

/-- The identities of the non-null sockets in a socket list, in list
order. -/
def socketIdsL (l : List (Option Socket)) : List Nat :=
  l.filterMap (fun o => o.map Socket.id)

/-- The identities of the non-null registered sockets of a server
state. -/
def socketIds (s : ServerState) : List Nat :=
  socketIdsL s.sockets

/-- The base64 alphabet used by QByteArray::toBase64 (standard
alphabet, RFC 4648). -/
def b64Alphabet : List Char :=
  "ABCDEFGHIJKLMNOPQRSTUVWXYZabcdefghijklmnopqrstuvwxyz0123456789+/".toList

/-- The base64 digit for a 6-bit value. -/
def b64Char (n : Nat) : Char :=
  b64Alphabet.getD n 'A'

/-- QByteArray::toBase64 with the default options: standard alphabet,
trailing groups padded with the = character. -/
def toBase64 : List Nat → String
  | [] => ""
  | [a] =>
      String.mk [b64Char (a % 256 / 4), b64Char (a % 256 % 4 * 16), '=', '=']
  | [a, b] =>
      String.mk [b64Char (a % 256 / 4),
                 b64Char (a % 256 % 4 * 16 + b % 256 / 16),
                 b64Char (b % 256 % 16 * 4), '=']
  | a :: b :: c :: rest =>
      String.mk [b64Char (a % 256 / 4),
                 b64Char (a % 256 % 4 * 16 + b % 256 / 16),
                 b64Char (b % 256 % 16 * 4 + c % 256 / 64),
                 b64Char (c % 256 % 64)] ++ toBase64 rest

/-- The compact serialization of the per-frame JSON object built in
sendProcessedData: object.insert("data", frame.serialize()). -/
def frameEntry (f : Frame) : String :=
  "\x7b\"data\":" ++ f.serialized ++ "\x7d"

/-- The compact serialization of the batched-frames envelope built in
sendProcessedData, with the trailing newline appended by the code:
document.toJson(Compact) + a newline. -/
def framesEnvelope (fs : List Frame) : String :=
  "\x7b\"frames\":[" ++ String.intercalate "," (fs.map frameEntry) ++ "]\x7d\n"

/-- The compact serialization of the raw-passthrough envelope built in
sendRawData: a single field "data" holding the base64 text of the
chunk, with the trailing newline. -/
def rawEnvelope (chunk : List Nat) : String :=
  "\x7b\"data\":\"" ++ toBase64 chunk ++ "\"\x7d\n"

/-- The Q_FOREACH write loop shared by sendProcessedData and
sendRawData: skip null entries, write json to every socket that is
writable, leave the rest alone.  The result records, in list order,
which socket received which payload. -/
def broadcastWrites (json : String) (l : List (Option Socket)) :
    List (Nat × String) :=
  l.filterMap (fun o =>
    o.bind (fun sk => if sk.writable then some (sk.id, json) else none))

/-- Plugins::Server::setEnabled.  Sets m_enabled and, when disabling,
aborts every non-null socket (best effort: abortOk reports whether the
abort of a given socket succeeded, which the code never inspects) and
clears the socket list; in both cases it then clears the frame buffer
(the clear + squeeze after the if-block runs unconditionally).  The
second component records the attempted aborts and their outcomes. -/
def setEnabled (abortOk : Nat → Bool) (b : Bool)
    (s : ServerState) : ServerState × List (Nat × Bool) :=
  if b = false then
    ({ s with enabled := b, sockets := [], frames := [] },
     s.sockets.filterMap (fun o => o.map (fun sk => (sk.id, abortOk sk.id))))
  else
    ({ s with enabled := b, frames := [] }, [])

/-- Plugins::Server::registerFrame: append the frame to m_frames only
when the subsystem is enabled. -/
def registerFrame (f : Frame) (s : ServerState) : ServerState :=
  if s.enabled then { s with frames := s.frames ++ [f] } else s

/-- Plugins::Server::sendProcessedData (the 1 Hz tick handler).
Returns the new state and the list of (socket id, payload) writes. -/
def sendProcessedData (s : ServerState) : ServerState × List (Nat × String) :=
  if s.enabled = false then (s, [])
  else if s.frames.length ≤ 0 then (s, [])
  else if s.sockets.length < 1 then (s, [])
  else
    let json := framesEnvelope s.frames
    let writes :=
      if 0 < s.frames.length then broadcastWrites json s.sockets else []
    ({ s with frames := [] }, writes)

/-- Plugins::Server::sendRawData: immediate base64 passthrough of a
raw chunk to every writable socket; does not touch m_frames. -/
def sendRawData (chunk : List Nat) (s : ServerState) :
    ServerState × List (Nat × String) :=
  if s.enabled = false then (s, [])
  else if s.sockets.length < 1 then (s, [])
  else (s, broadcastWrites (rawEnvelope chunk) s.sockets)

/-- Find the registered socket with the given identity (the sender of
a per-connection signal), skipping null entries. -/
def findSockL (sid : Nat) : List (Option Socket) → Option Socket
  | [] => none
  | none :: t => findSockL sid t
  | some sk :: t => if sk.id = sid then some sk else findSockL sid t

/-- Empty the read buffer of the socket with the given identity
(the effect of readAll() on the sender socket). -/
def drainSockL (sid : Nat) (l : List (Option Socket)) :
    List (Option Socket) :=
  l.map (fun o => o.map (fun sk =>
    if sk.id = sid then { sk with readBuf := [] } else sk))

/-- Plugins::Server::onDataReceived.  The sender socket is identified
by sid.  Only when the server is enabled (and the sender is a real
socket) is the entire available byte range read and forwarded to
IO::Manager::writeData; the second component lists the writeData
calls.  When disabled the handler does nothing: in particular it does
not call readAll, so the bytes stay in the socket buffer. -/
def onDataReceived (sid : Nat) (s : ServerState) :
    ServerState × List (List Nat) :=
  if s.enabled then
    match findSockL sid s.sockets with
    | some sk =>
        ({ s with sockets := drainSockL sid s.sockets }, [sk.readBuf])
    | none => (s, [])
  else (s, [])

/-- Plugins::Server::acceptConnection.  pendingValid tells whether
nextPendingConnection returned a non-null socket.  A null pending
connection while enabled is reported (message output); while disabled
any pending socket is closed and dropped; otherwise the new socket is
registered with a fresh identity. -/
def acceptConnection (pendingValid : Bool) (s : ServerState) :
    ServerState × List String :=
  if pendingValid = false ∧ s.enabled = true then
    (s, ["Invalid pending connection"])
  else if s.enabled = false then (s, [])
  else
    ({ s with
        sockets := s.sockets ++ [some ⟨s.nextId, true, []⟩],
        nextId := s.nextId + 1 }, [])

/-- The removal loop of Plugins::Server::removeConnection, faithfully
including its index arithmetic: scanning from index i, when the entry
at i is the sender the entry is removed and i is reset to 0, after
which the for-loop increment resumes the scan at index 1. -/
def removeConnLoop (tgt : Nat) (l : List (Option Socket)) (i : Nat) :
    List (Option Socket) :=
  if h : i < l.length then
    match l[i] with
    | some sk =>
        if sk.id = tgt then removeConnLoop tgt (l.eraseIdx i) 1
        else removeConnLoop tgt l (i + 1)
    | none => removeConnLoop tgt l (i + 1)
  else l
termination_by (l.length, l.length - i)
decreasing_by
  · apply Prod.Lex.left
    simp [List.length_eraseIdx, h]
    omega
  · apply Prod.Lex.right
    omega

/-- Plugins::Server::removeConnection for a non-null sender socket:
run the removal loop from index 0 (the socket object itself is then
released with deleteLater). -/
def removeConnection (sid : Nat) (s : ServerState) : ServerState :=
  { s with sockets := removeConnLoop sid s.sockets 0 }

/-- Plugins::Server::onErrorOccurred: print the sender socket error
string when the sender is a real socket, otherwise print the numeric
error code.  Nothing else happens. -/
def onErrorOccurred (sender : Option Nat) (errStr : String)
    (errCode : Nat) (s : ServerState) : ServerState × List String :=
  (s, [match sender with
       | some _ => errStr
       | none => toString errCode])

/-- The messages delivered to the socket with identity sid among a
list of (socket id, payload) writes, in delivery order. -/
def msgsTo (sid : Nat) (out : List (Nat × String)) : List String :=
  (out.filter (fun p => p.1 = sid)).map Prod.snd

/-- The discrete events the server reacts to: its own slots (enable
and disable, frame-ready, 1 Hz tick, raw-bytes-ready, incoming
connection, readable data, disconnect, socket error) plus the two
environment events that change a socket as the OS sees it (bytes
arriving in its read buffer, its writability changing). -/
inductive Event where
  | setEnabledEv (abortOk : Nat → Bool) (b : Bool)
  | registerFrameEv (f : Frame)
  | tick
  | rawData (chunk : List Nat)
  | accept (pendingValid : Bool)
  | dataReceived (sid : Nat)
  | disconnect (sid : Nat)
  | sockError (sender : Option Nat) (errStr : String) (errCode : Nat)
  | deliver (sid : Nat) (bytes : List Nat)
  | setWritable (sid : Nat) (w : Bool)

/-- One event-handler execution: the new server state together with
the writes made to client sockets during the handler. -/
def step (s : ServerState) (e : Event) : ServerState × List (Nat × String) :=
  match e with
  | .setEnabledEv f b => ((setEnabled f b s).1, [])
  | .registerFrameEv f => (registerFrame f s, [])
  | .tick => sendProcessedData s
  | .rawData chunk => sendRawData chunk s
  | .accept p => ((acceptConnection p s).1, [])
  | .dataReceived sid => ((onDataReceived sid s).1, [])
  | .disconnect sid => (removeConnection sid s, [])
  | .sockError sender str code => ((onErrorOccurred sender str code s).1, [])
  | .deliver sid bytes =>
      ({ s with sockets := s.sockets.map (fun o => o.map (fun sk =>
          if sk.id = sid then { sk with readBuf := sk.readBuf ++ bytes }
          else sk)) }, [])
  | .setWritable sid w =>
      ({ s with sockets := s.sockets.map (fun o => o.map (fun sk =>
          if sk.id = sid then { sk with writable := w } else sk)) }, [])

/-- Run a sequence of events from a state, accumulating every write
made to a client socket along the way. -/
def run (s : ServerState) : List Event → ServerState × List (Nat × String)
  | [] => (s, [])
  | e :: evs =>
      let r := step s e
      let rest := run r.1 evs
      (rest.1, r.2 ++ rest.2)

/-- The buffer-discipline invariant of the spec: whenever the server
is disabled the pending frame buffer is empty. -/
def FramesInv (s : ServerState) : Prop :=
  s.enabled = false → s.frames = []

/-- Well-formedness of the socket registry, maintained by the real
server: socket identities are pairwise distinct, and every identity
was produced by the allocator counter. -/
def Good (s : ServerState) : Prop :=
  (socketIds s).Nodup ∧ ∀ i ∈ socketIds s, i < s.nextId

/-- Registering a batch of frames one by one, in order (the frames
that arrive between two ticks). -/
def regAll (fs : List Frame) (s : ServerState) : ServerState :=
  fs.foldl (fun t f => registerFrame f t) s
theorem mem_socketIdsL_of_mem {sk : Socket} {l : List (Option Socket)}
    (h : some sk ∈ l) : sk.id ∈ socketIdsL l := by
  simp only [socketIdsL, List.mem_filterMap]
  exact ⟨some sk, h, rfl⟩

theorem broadcastWrites_mem {json : String} {l : List (Option Socket)}
    {m : Nat × String} (h : m ∈ broadcastWrites json l) :
    m.1 ∈ socketIdsL l := by
  simp only [broadcastWrites, List.mem_filterMap] at h
  obtain ⟨o, ho, hfo⟩ := h
  match o with
  | none => simp at hfo
  | some sk =>
      simp only [Option.some_bind] at hfo
      by_cases hw : sk.writable
      · simp [hw] at hfo
        subst hfo
        exact mem_socketIdsL_of_mem ho
      · simp [hw] at hfo

theorem msgsTo_broadcastWrites_of_not_mem {sid : Nat} {json : String}
    {l : List (Option Socket)} (h : sid ∉ socketIdsL l) :
    msgsTo sid (broadcastWrites json l) = [] := by
  simp only [msgsTo, List.map_eq_nil_iff, List.filter_eq_nil_iff]
  intro m hm
  simp only [decide_eq_true_eq]
  intro hEq
  exact h (hEq ▸ broadcastWrites_mem hm)

theorem msgsTo_broadcastWrites {json : String} {sk : Socket} :
    ∀ {l : List (Option Socket)}, (socketIdsL l).Nodup → some sk ∈ l →
    msgsTo sk.id (broadcastWrites json l) =
      if sk.writable then [json] else [] := by
  intro l
  induction l with
  | nil => intro _ hmem; simp at hmem
  | cons o t ih =>
      intro hnd hmem
      match o with
      | none =>
          simp only [List.mem_cons, reduceCtorEq, false_or] at hmem
          simp only [socketIdsL, List.filterMap_cons, Option.map_none'] at hnd
          have hb : broadcastWrites json (none :: t) = broadcastWrites json t := by
            simp [broadcastWrites]
          rw [hb]
          exact ih hnd hmem
      | some k =>
          simp only [socketIdsL, List.filterMap_cons, Option.map_some',
            List.nodup_cons] at hnd
          have hb : broadcastWrites json (some k :: t)
              = (if k.writable then [(k.id, json)] else []) ++ broadcastWrites json t := by
            by_cases hw : k.writable <;> simp [broadcastWrites, hw]
          rcases List.mem_cons.mp hmem with hk | hmem
          · have hks : k = sk := by injection hk.symm
            subst hks
            have ht : msgsTo k.id (broadcastWrites json t) = [] :=
              msgsTo_broadcastWrites_of_not_mem hnd.1
            by_cases hw : k.writable
            · rw [hb]
              simp [hw, msgsTo, List.filter_append, List.map_append] at ht ⊢
              simpa [msgsTo] using ht
            · rw [hb]
              simp only [hw, if_false, Bool.false_eq_true, List.nil_append]
              exact ht
          · have hne : k.id ≠ sk.id := by
              intro hEq
              exact hnd.1 (hEq ▸ mem_socketIdsL_of_mem hmem)
            rw [hb]
            have := ih hnd.2 hmem
            by_cases hw : k.writable
            · simp only [hw, if_true, List.singleton_append]
              simpa [msgsTo, List.filter_cons, hne] using this
            · simp only [hw, if_false, Bool.false_eq_true, List.nil_append]
              exact this

theorem sendProcessedData_sockets (s : ServerState) :
    (sendProcessedData s).1.sockets = s.sockets := by
  unfold sendProcessedData
  split
  · rfl
  · split
    · rfl
    · split <;> rfl

theorem sendProcessedData_enabled (s : ServerState) :
    (sendProcessedData s).1.enabled = s.enabled := by
  unfold sendProcessedData
  split
  · rfl
  · split
    · rfl
    · split <;> rfl

theorem sendProcessedData_nextId (s : ServerState) :
    (sendProcessedData s).1.nextId = s.nextId := by
  unfold sendProcessedData
  split
  · rfl
  · split
    · rfl
    · split <;> rfl

theorem sendRawData_fst (chunk : List Nat) (s : ServerState) :
    (sendRawData chunk s).1 = s := by
  unfold sendRawData
  split
  · rfl
  · split <;> rfl

theorem removeConnLoop_sublist (tgt : Nat) (l : List (Option Socket))
    (i : Nat) : List.Sublist (removeConnLoop tgt l i) l := by
  unfold removeConnLoop
  split
  · rename_i h
    split
    · rename_i sk heq
      split
      · exact (removeConnLoop_sublist tgt (l.eraseIdx i) 1).trans
          (List.eraseIdx_sublist l i)
      · exact removeConnLoop_sublist tgt l (i + 1)
    · exact removeConnLoop_sublist tgt l (i + 1)
  · exact List.Sublist.refl l
termination_by (l.length, l.length - i)
decreasing_by
  all_goals
    first
      | · apply Prod.Lex.right
          omega
      | · apply Prod.Lex.left
          have hlt : i < l.length := by assumption
          rw [List.length_eraseIdx]
          simp only [hlt, if_true]
          omega

theorem removeConnLoop_not_mem (tgt : Nat) (l : List (Option Socket))
    (i : Nat) (hnd : (socketIdsL l).Nodup)
    (hpre : tgt ∉ socketIdsL (l.take i)) :
    tgt ∉ socketIdsL (removeConnLoop tgt l i) := by
  unfold removeConnLoop
  split
  · rename_i h
    split
    · rename_i sk heq
      split
      · rename_i hid
        have hsplit : l = l.take i ++ l[i] :: l.drop (i + 1) := by
          conv_lhs => rw [← List.take_append_drop i l]
          rw [List.drop_eq_getElem_cons h]
        have herase : l.eraseIdx i = l.take i ++ l.drop (i + 1) :=
          List.eraseIdx_eq_take_drop_succ l i
        have hids : socketIdsL l =
            socketIdsL (l.take i) ++ tgt :: socketIdsL (l.drop (i + 1)) := by
          conv_lhs => rw [hsplit]
          simp [socketIdsL, List.filterMap_append, heq, hid]
        have hnotmem : tgt ∉ socketIdsL (l.eraseIdx i) := by
          rw [herase]
          simp only [socketIdsL, List.filterMap_append, List.mem_append]
          rw [hids] at hnd
          have h2 := List.Nodup.not_mem ((List.nodup_append.mp hnd).2.1)
          rintro (hc | hc)
          · exact hpre hc
          · exact h2 hc
        intro hc
        exact hnotmem
          ((List.Sublist.filterMap _
            (removeConnLoop_sublist tgt (l.eraseIdx i) 1)).mem hc)
      · rename_i hid
        apply removeConnLoop_not_mem tgt l (i + 1) hnd
        rw [List.take_succ]
        simp only [socketIdsL, List.filterMap_append, List.mem_append]
        rintro (hc | hc)
        · exact hpre hc
        · have hgi : l[i]? = some (some sk) := by
            rw [List.getElem?_eq_getElem h, heq]
          simp [hgi] at hc
          exact hid hc.symm
    · rename_i heq
      apply removeConnLoop_not_mem tgt l (i + 1) hnd
      rw [List.take_succ]
      simp only [socketIdsL, List.filterMap_append, List.mem_append]
      rintro (hc | hc)
      · exact hpre hc
      · have hgi : l[i]? = some none := by
          rw [List.getElem?_eq_getElem h, heq]
        simp [hgi] at hc
  · rename_i h
    have : l.take i = l := List.take_of_length_le (by omega)
    rw [this] at hpre
    exact hpre
termination_by l.length - i
decreasing_by
  all_goals omega

theorem socketIdsL_map_preserve (g : Socket → Socket)
    (hg : ∀ sk, (g sk).id = sk.id) (l : List (Option Socket)) :
    socketIdsL (l.map (fun o => o.map g)) = socketIdsL l := by
  induction l with
  | nil => rfl
  | cons o t ih =>
      match o with
      | none => simpa [socketIdsL] using ih
      | some sk => simpa [socketIdsL, hg] using ih

theorem socketIdsL_drain (sid : Nat) (l : List (Option Socket)) :
    socketIdsL (drainSockL sid l) = socketIdsL l := by
  unfold drainSockL
  apply socketIdsL_map_preserve
  intro sk
  by_cases h : sk.id = sid <;> simp [h]

theorem socketIdsL_append (l₁ l₂ : List (Option Socket)) :
    socketIdsL (l₁ ++ l₂) = socketIdsL l₁ ++ socketIdsL l₂ := by
  simp [socketIdsL, List.filterMap_append]

/-- A connection identity that is absent from the registry and below
the allocator counter stays absent (and below the counter) across
every event: no handler ever re-inserts an old identity. -/
theorem step_avoid (s : ServerState) (e : Event) (sid : Nat)
    (hmem : sid ∉ socketIds s) (hlt : sid < s.nextId) :
    sid ∉ socketIds (step s e).1 ∧ sid < (step s e).1.nextId := by
  match e with
  | .setEnabledEv f b =>
      have hsock : (setEnabled f b s).1.sockets
          = if b = false then [] else s.sockets := by
        by_cases hb : b = false <;> simp [setEnabled, hb]
      have hnid : (setEnabled f b s).1.nextId = s.nextId := by
        by_cases hb : b = false <;> simp [setEnabled, hb]
      constructor
      · show sid ∉ socketIdsL (setEnabled f b s).1.sockets
        rw [hsock]
        by_cases hb : b = false
        · simp [hb, socketIdsL]
        · simp only [hb, if_false]
          exact hmem
      · show sid < (setEnabled f b s).1.nextId
        rw [hnid]
        exact hlt
  | .registerFrameEv f =>
      have hsock : (registerFrame f s).sockets = s.sockets := by
        by_cases hs : s.enabled <;> simp [registerFrame, hs]
      have hnid : (registerFrame f s).nextId = s.nextId := by
        by_cases hs : s.enabled <;> simp [registerFrame, hs]
      constructor
      · show sid ∉ socketIdsL (registerFrame f s).sockets
        rw [hsock]
        exact hmem
      · show sid < (registerFrame f s).nextId
        rw [hnid]
        exact hlt
  | .tick =>
      refine ⟨?_, ?_⟩
      · show sid ∉ socketIdsL (sendProcessedData s).1.sockets
        rw [sendProcessedData_sockets]
        exact hmem
      · show sid < (sendProcessedData s).1.nextId
        rw [sendProcessedData_nextId]
        exact hlt
  | .rawData chunk =>
      rw [step, sendRawData_fst]
      exact ⟨hmem, hlt⟩
  | .accept p =>
      simp only [step, acceptConnection]
      split
      · exact ⟨hmem, hlt⟩
      · split
        · exact ⟨hmem, hlt⟩
        · constructor
          · show sid ∉ socketIdsL (s.sockets ++ [some ⟨s.nextId, true, []⟩])
            rw [socketIdsL_append]
            simp only [List.mem_append]
            rintro (hc | hc)
            · exact hmem hc
            · simp [socketIdsL] at hc
              omega
          · show sid < s.nextId + 1
            omega
  | .dataReceived sid2 =>
      simp only [step, onDataReceived]
      split
      · split
        · refine ⟨?_, hlt⟩
          show sid ∉ socketIdsL (drainSockL sid2 s.sockets)
          rw [socketIdsL_drain]
          exact hmem
        · exact ⟨hmem, hlt⟩
      · exact ⟨hmem, hlt⟩
  | .disconnect sid2 =>
      refine ⟨?_, hlt⟩
      show sid ∉ socketIdsL (removeConnLoop sid2 s.sockets 0)
      intro hc
      exact hmem
        ((List.Sublist.filterMap _
          (removeConnLoop_sublist sid2 s.sockets 0)).mem hc)
  | .sockError sender str code => exact ⟨hmem, hlt⟩
  | .deliver sid2 bytes =>
      refine ⟨?_, hlt⟩
      show sid ∉ socketIdsL (s.sockets.map _)
      rw [socketIdsL_map_preserve]
      · exact hmem
      · intro sk
        by_cases h : sk.id = sid2 <;> simp [h]
  | .setWritable sid2 w =>
      refine ⟨?_, hlt⟩
      show sid ∉ socketIdsL (s.sockets.map _)
      rw [socketIdsL_map_preserve]
      · exact hmem
      · intro sk
        by_cases h : sk.id = sid2 <;> simp [h]

/-- Every write a handler performs goes to a socket that was in the
registry when the event arrived. -/
theorem step_writes_mem (s : ServerState) (e : Event) (m : Nat × String)
    (hm : m ∈ (step s e).2) : m.1 ∈ socketIds s := by
  match e with
  | .setEnabledEv f b => simp [step] at hm
  | .registerFrameEv f => simp [step] at hm
  | .tick =>
      simp only [step, sendProcessedData] at hm
      split at hm
      · simp at hm
      · split at hm
        · simp at hm
        · split at hm
          · simp at hm
          · split at hm
            · exact broadcastWrites_mem hm
            · simp at hm
  | .rawData chunk =>
      simp only [step, sendRawData] at hm
      split at hm
      · simp at hm
      · split at hm
        · simp at hm
        · exact broadcastWrites_mem hm
  | .accept p => simp [step] at hm
  | .dataReceived sid2 =>
      simp only [step] at hm
      simp at hm
  | .disconnect sid2 => simp [step] at hm
  | .sockError sender str code => simp [step] at hm
  | .deliver sid2 bytes => simp [step] at hm
  | .setWritable sid2 w => simp [step] at hm

/-- Once an identity is out of the registry and below the allocator
counter, no write in any later run of events targets it. -/
theorem run_msgsTo_nil (sid : Nat) :
    ∀ (evs : List Event) (s : ServerState),
    sid ∉ socketIds s → sid < s.nextId →
    msgsTo sid (run s evs).2 = []
  | [], s, _, _ => rfl
  | e :: evs, s, hmem, hlt => by
      simp only [run, msgsTo, List.filter_append, List.map_append]
      have h1 : msgsTo sid (step s e).2 = [] := by
        simp only [msgsTo, List.map_eq_nil_iff, List.filter_eq_nil_iff]
        intro m hm
        simp only [decide_eq_true_eq]
        intro hEq
        exact hmem (hEq ▸ step_writes_mem s e m hm)
      have h2 : msgsTo sid (run (step s e).1 evs).2 = [] :=
        run_msgsTo_nil sid evs (step s e).1
          (step_avoid s e sid hmem hlt).1 (step_avoid s e sid hmem hlt).2
      simp only [msgsTo] at h1 h2
      rw [h1, h2]
      rfl

/-- Looking up the sender after readAll drained it: the socket is
still found, with an empty read buffer. -/
theorem findSockL_drain (sid : Nat) (l : List (Option Socket)) :
    findSockL sid (drainSockL sid l)
      = (findSockL sid l).map (fun sk => { sk with readBuf := [] }) := by
  induction l with
  | nil => rfl
  | cons o t ih =>
      match o with
      | none => simpa [findSockL, drainSockL] using ih
      | some sk =>
          by_cases h : sk.id = sid
          · simp [findSockL, drainSockL, h]
          · simpa [findSockL, drainSockL, h] using ih

theorem drainSockL_length (sid : Nat) (l : List (Option Socket)) :
    (drainSockL sid l).length = l.length := by
  simp [drainSockL]

/-- Registering a batch of frames while enabled appends the batch to
the buffer in order and changes nothing else. -/
theorem regAll_enabled (fs : List Frame) :
    ∀ s : ServerState, s.enabled = true →
    regAll fs s = { s with frames := s.frames ++ fs } := by
  induction fs with
  | nil => intro s _; simp [regAll]
  | cons f fs ih =>
      intro s hen
      have h1 : registerFrame f s = { s with frames := s.frames ++ [f] } := by
        simp [registerFrame, hen]
      have h2 : regAll (f :: fs) s = regAll fs (registerFrame f s) := rfl
      rw [h2, h1, ih _ (by simp [hen])]
      simp

theorem sendProcessedData_frames_nil (s : ServerState) (h : s.frames = []) :
    (sendProcessedData s).1.frames = [] := by
  unfold sendProcessedData
  split
  · exact h
  · split
    · exact h
    · split
      · exact h
      · rfl

theorem sendProcessedData_snd_nil (s : ServerState) (h : s.frames = []) :
    (sendProcessedData s).2 = [] := by
  unfold sendProcessedData
  split
  · rfl
  · split
    · rfl
    · rename_i hlen
      exfalso
      rw [h] at hlen
      exact hlen (by simp)

theorem acceptConnection_frames (p : Bool) (s : ServerState) :
    (acceptConnection p s).1.frames = s.frames := by
  unfold acceptConnection
  split
  · rfl
  · split <;> rfl

theorem acceptConnection_enabled (p : Bool) (s : ServerState) :
    (acceptConnection p s).1.enabled = s.enabled := by
  unfold acceptConnection
  split
  · rfl
  · split <;> rfl

theorem onDataReceived_frames (sid : Nat) (s : ServerState) :
    (onDataReceived sid s).1.frames = s.frames := by
  unfold onDataReceived
  split
  · split <;> rfl
  · rfl

theorem onDataReceived_enabled (sid : Nat) (s : ServerState) :
    (onDataReceived sid s).1.enabled = s.enabled := by
  unfold onDataReceived
  split
  · split <;> rfl
  · rfl

/-
The claims, C1 to C10.  Example states used by witnesses and
counterexamples follow here.
-/

/-- An enabled server with one pending frame and no connections: the
tick handler stops at the zero-connections check and does not clear
the buffer. -/
def c1St : ServerState := ⟨true, [], [⟨"1"⟩], 0⟩

/-- An enabled server with one writable connection and one pending
frame. -/
def c1WSt : ServerState := ⟨true, [some ⟨0, true, []⟩], [⟨"2"⟩], 1⟩

/-- C1, as stated, is false: with the server enabled, a non-empty
pending frame buffer and zero registered connections, the tick
handler returns at the connection-count check and leaves the buffer
non-empty. -/
theorem c1_counterexample :
    ¬ ((sendProcessedData c1St).1.frames = []) := by decide

/-- C1 (amended): after a tick on a state whose buffer is already
empty, or whose server is enabled with at least one registered
connection, the pending frame buffer is empty; in particular a second
consecutive tick with no frame registrations in between sends no
message to any connection. -/
theorem c1_amended (s : ServerState)
    (h : s.frames = [] ∨ (s.enabled = true ∧ s.sockets ≠ [])) :
    (sendProcessedData s).1.frames = []
    ∧ (sendProcessedData (sendProcessedData s).1).2 = [] := by
  have h1 : (sendProcessedData s).1.frames = [] := by
    rcases h with h | ⟨hen, hsk⟩
    · exact sendProcessedData_frames_nil s h
    · unfold sendProcessedData
      split


      · rename_i hc
        rw [hen] at hc
        cases hc
      · split
        · rename_i hlen
          show s.frames = []
          exact List.eq_nil_of_length_eq_zero (by omega)
        · split
          · rename_i hsl
            exfalso
            exact hsk (List.eq_nil_of_length_eq_zero (by omega))
          · rfl
  exact ⟨h1, sendProcessedData_snd_nil _ h1⟩

/-- Witness for C1 (amended) at a concrete enabled one-connection
state. -/
theorem c1_witness :
    (sendProcessedData c1WSt).1.frames = []
    ∧ (sendProcessedData (sendProcessedData c1WSt).1).2 = [] :=
  c1_amended c1WSt (Or.inr ⟨rfl, by decide⟩)

/-- An enabled server holding one connection and one buffered frame
(used to refute C3: enabling again clears the buffer). -/
def c3St : ServerState := ⟨true, [some ⟨0, true, []⟩], [⟨"1"⟩], 1⟩

/-- C3, as stated, is false: setEnabled(true) on a state with a
non-empty pending frame buffer clears the buffer (the clear runs
unconditionally after the disable-only block). -/
theorem c3_counterexample :
    (setEnabled (fun _ => true) true c3St).1.frames ≠ c3St.frames := by
  decide

/-- C3 (amended): setEnabled(true) sets the enabled flag and leaves
the connection set unchanged, but it always clears the pending frame
buffer (and aborts no socket). -/
theorem c3_amended (abortOk : Nat → Bool) (s : ServerState) :
    (setEnabled abortOk true s).1.enabled = true
    ∧ (setEnabled abortOk true s).1.sockets = s.sockets
    ∧ (setEnabled abortOk true s).1.frames = []
    ∧ (setEnabled abortOk true s).2 = [] := by
  simp [setEnabled]

/-- C5: setEnabled(false) leaves zero tracked connections and an
empty frame buffer, for every starting state and regardless of which
socket aborts succeed (the abortOk oracle). -/
theorem c5_disable_clears (abortOk : Nat → Bool) (s : ServerState) :
    (setEnabled abortOk false s).1.sockets = []
    ∧ (setEnabled abortOk false s).1.frames = []
    ∧ (setEnabled abortOk false s).1.enabled = false := by
  simp [setEnabled]

/-- C9: the socket-error handler records exactly one diagnostic line
(the error description, or the numeric code when no sender socket is
available) and changes nothing: the state, hence the connection set
and the enabled flag, is returned untouched. -/
theorem c9_error_only_logs (sender : Option Nat) (errStr : String)
    (errCode : Nat) (s : ServerState) :
    (onErrorOccurred sender errStr errCode s).1 = s
    ∧ ((onErrorOccurred sender errStr errCode s).2).length = 1 :=
  ⟨rfl, rfl⟩

/-- C10: neither the tick broadcast nor the raw passthrough changes
the connection list: null or non-writable entries are skipped for the
write but the list itself is returned exactly as it was. -/
theorem c10_sends_preserve_sockets (s : ServerState) (chunk : List Nat) :
    (sendProcessedData s).1.sockets = s.sockets
    ∧ (sendRawData chunk s).1.sockets = s.sockets :=
  ⟨sendProcessedData_sockets s, by rw [sendRawData_fst]⟩

/-- An enabled server with an empty buffer, a writable connection 0
and a non-writable connection 1 (the post-previous-tick state used by
the C2 witness). -/
def c2St : ServerState := ⟨true, [some ⟨0, true, []⟩, some ⟨1, false, []⟩], [], 2⟩

/-- The frame batch registered between the two ticks in the C2
witness. -/
def c2Wfs : List Frame := [⟨"7"⟩, ⟨"8"⟩]

/-- C2: starting from a state whose buffer is empty (the state left
by the previous tick), enabled, with distinct socket identities,
register any non-empty batch of frames and tick: every registered
connection that is writable receives exactly one message, the
newline-terminated envelope listing exactly the registered batch in
registration order; a non-writable connection receives nothing; and
the tick leaves the buffer empty. -/
theorem c2_tick_broadcast (s : ServerState) (fs : List Frame) (sk : Socket)
    (h0 : s.frames = []) (hen : s.enabled = true)
    (hnd : (socketIds s).Nodup) (hmem : some sk ∈ s.sockets)
    (hfs : fs ≠ []) :
    msgsTo sk.id (sendProcessedData (regAll fs s)).2
      = (if sk.writable then [framesEnvelope fs] else [])
    ∧ (sendProcessedData (regAll fs s)).1.frames = [] := by
  have hreg : regAll fs s = { s with frames := fs } := by
    rw [regAll_enabled fs s hen, h0]
    simp
  rw [hreg]
  unfold sendProcessedData
  have hlen : ¬ (fs.length ≤ 0) := by
    cases fs with
    | nil => exact absurd rfl hfs
    | cons a t => simp
  have hsk : ¬ (s.sockets.length < 1) := by
    have := List.length_pos_of_mem hmem
    omega
  simp only [hen, Bool.true_eq_false, if_false, hlen, hsk]
  have hpos : 0 < fs.length := by omega
  simp only [hpos, if_true]
  exact ⟨msgsTo_broadcastWrites hnd hmem, trivial⟩

/-- Witness for C2 at a concrete input: two frames, one writable and
one non-writable connection. -/
theorem c2_witness :
    msgsTo (Socket.id ⟨0, true, []⟩)
        (sendProcessedData (regAll c2Wfs c2St)).2
      = (if Socket.writable ⟨0, true, []⟩
           then [framesEnvelope c2Wfs] else [])
    ∧ (sendProcessedData (regAll c2Wfs c2St)).1.frames = [] :=
  c2_tick_broadcast c2St c2Wfs ⟨0, true, []⟩ rfl rfl (by decide)
    (by decide) (by decide)

/-- A disabled server whose single connection has two unread bytes
(used to refute the read-and-discard part of C4). -/
def c4DisSt : ServerState := ⟨false, [some ⟨0, true, [1, 2]⟩], [], 1⟩

/-- An enabled server whose single connection has two unread bytes. -/
def c4EnSt : ServerState := ⟨true, [some ⟨0, true, [5, 6]⟩], [], 1⟩

/-- C4, as stated, is false: on a readable-data event while disabled
the bytes are NOT read and discarded; the handler returns without
calling readAll, so the connection still holds its bytes
afterwards. -/
theorem c4_counterexample :
    (findSockL 0 ((onDataReceived 0 c4DisSt).1).sockets).map Socket.readBuf
      ≠ some [] := by decide

/-- C4 (amended): on a readable-data event from a registered
connection, if the server is enabled the entire currently available
byte range is forwarded byte-for-byte to the pipeline write sink
exactly once and the connection buffer is drained, with the
connection set preserved; if the server is disabled the handler does
nothing at all — the bytes stay unread in the connection buffer,
nothing is forwarded, and the connection remains registered and
open. -/
theorem c4_data_received (s : ServerState) (sid : Nat) (sk : Socket)
    (hfind : findSockL sid s.sockets = some sk) :
    (s.enabled = true →
       (onDataReceived sid s).2 = [sk.readBuf]
       ∧ (findSockL sid ((onDataReceived sid s).1).sockets).map
           Socket.readBuf = some []
       ∧ ((onDataReceived sid s).1).sockets.length = s.sockets.length
       ∧ ((onDataReceived sid s).1).enabled = s.enabled)
    ∧ (s.enabled = false → onDataReceived sid s = (s, [])) := by
  constructor
  · intro hen
    unfold onDataReceived
    simp only [hen, if_true, hfind]
    refine ⟨trivial, ?_, ?_, trivial⟩
    · show (findSockL sid (drainSockL sid s.sockets)).map Socket.readBuf
        = some []
      rw [findSockL_drain, hfind]
      rfl
    · show (drainSockL sid s.sockets).length = s.sockets.length
      exact drainSockL_length sid s.sockets
  · intro hdis
    unfold onDataReceived
    simp [hdis]

/-- Witness for C4 (amended), at one enabled and one disabled
concrete state. -/
theorem c4_witness :
    (onDataReceived 0 c4EnSt).2 = [[5, 6]]
    ∧ onDataReceived 0 c4DisSt = (c4DisSt, []) := by
  have h1 := c4_data_received c4EnSt 0 ⟨0, true, [5, 6]⟩ (by decide)
  have h2 := c4_data_received c4DisSt 0 ⟨0, true, [1, 2]⟩ (by decide)
  exact ⟨(h1.1 rfl).1, h2.2 rfl⟩

/-- A disabled server with empty buffer (used by the C6 witness). -/
def c6St : ServerState := ⟨false, [], [], 0⟩

/-- C6: the invariant "disabled implies empty buffer" is preserved by
every event the server reacts to, and a frame-ready event while
disabled changes nothing (the frame is dropped, never queued) — so a
frame registered while disabled can never be broadcast after
re-enabling. -/
theorem c6_disabled_buffer_inv (s : ServerState) (e : Event) (f : Frame)
    (h : FramesInv s) :
    FramesInv (step s e).1
    ∧ (s.enabled = false → registerFrame f s = s) := by
  constructor
  · match e with
    | .setEnabledEv g b =>
        intro _
        show (setEnabled g b s).1.frames = []
        by_cases hb : b = false <;> simp [setEnabled, hb]
    | .registerFrameEv g =>
        by_cases hs : s.enabled = true
        · intro hc
          show (registerFrame g s).frames = []
          simp only [step] at hc
          rw [show (registerFrame g s).enabled = s.enabled by
              simp [registerFrame, hs]] at hc
          rw [hs] at hc
          cases hc
        · intro hc
          show (registerFrame g s).frames = []
          have hs' : s.enabled = false := by
            cases hb : s.enabled
            · rfl
            · exact absurd hb hs
          simp only [registerFrame, hs', Bool.false_eq_true, if_false]
          exact h hs'
    | .tick =>
        intro hc
        show (sendProcessedData s).1.frames = []
        simp only [step] at hc
        rw [sendProcessedData_enabled] at hc
        exact sendProcessedData_frames_nil s (h hc)
    | .rawData chunk =>
        intro hc
        show (sendRawData chunk s).1.frames = []
        simp only [step] at hc
        rw [sendRawData_fst] at hc ⊢
        exact h hc
    | .accept p =>
        intro hc
        show (acceptConnection p s).1.frames = []
        simp only [step] at hc
        rw [acceptConnection_enabled] at hc
        rw [acceptConnection_frames]
        exact h hc
    | .dataReceived sid =>
        intro hc
        show (onDataReceived sid s).1.frames = []
        simp only [step] at hc
        rw [onDataReceived_enabled] at hc
        rw [onDataReceived_frames]
        exact h hc
    | .disconnect sid => exact fun hc => h hc
    | .sockError sender str code => exact fun hc => h hc
    | .deliver sid bytes => exact fun hc => h hc
    | .setWritable sid w => exact fun hc => h hc
  · intro hdis
    simp [registerFrame, hdis]

/-- Witness for C6 at a concrete disabled state and a tick event. -/
theorem c6_witness :
    FramesInv (step c6St Event.tick).1
    ∧ (c6St.enabled = false → registerFrame ⟨"9"⟩ c6St = c6St) :=
  c6_disabled_buffer_inv c6St Event.tick ⟨"9"⟩ (fun _ => rfl)

/-- An enabled server with a writable connection 0 and a non-writable
connection 1 (used by the C7 witness). -/
def c7St : ServerState := ⟨true, [some ⟨0, true, []⟩, some ⟨1, false, []⟩], [], 2⟩

/-- C7: a raw-bytes-ready event on an enabled server with a
registered connection produces, immediately and without touching the
state (in particular the pending frame buffer), exactly one message
per writable connection — the single-field envelope carrying the
base64 encoding of the chunk, newline-terminated — and nothing for
non-writable connections; while disabled, no message is sent at
all. -/
theorem c7_raw_passthrough (s : ServerState) (chunk : List Nat) (sk : Socket)
    (hnd : (socketIds s).Nodup) (hmem : some sk ∈ s.sockets) :
    (s.enabled = true →
       (sendRawData chunk s).1 = s
       ∧ msgsTo sk.id (sendRawData chunk s).2
           = (if sk.writable then [rawEnvelope chunk] else [])
       ∧ rawEnvelope chunk
           = "\x7b\"data\":\"" ++ toBase64 chunk ++ "\"\x7d\n")
    ∧ (s.enabled = false → sendRawData chunk s = (s, [])) := by
  constructor
  · intro hen
    refine ⟨sendRawData_fst chunk s, ?_, rfl⟩
    unfold sendRawData
    have hsk : ¬ (s.sockets.length < 1) := by
      have := List.length_pos_of_mem hmem
      omega
    simp only [hen, Bool.true_eq_false, if_false, hsk]
    exact msgsTo_broadcastWrites hnd hmem
  · intro hdis
    simp [sendRawData, hdis]

/-- Witness for C7 at a concrete chunk and two-connection state. -/
theorem c7_witness :
    (sendRawData [72, 105] c7St).1 = c7St
    ∧ msgsTo 0 (sendRawData [72, 105] c7St).2 = [rawEnvelope [72, 105]] := by
  have h := (c7_raw_passthrough c7St [72, 105] ⟨0, true, []⟩
    (by decide) (by decide)).1 rfl
  exact ⟨h.1, by simpa using h.2.1⟩

/-- An enabled server with two writable connections and a buffered
frame (used by the C8 witness). -/
def c8St : ServerState := ⟨true, [some ⟨0, true, []⟩, some ⟨1, true, []⟩], [⟨"9"⟩], 2⟩

/-- The events run after the disconnection in the C8 witness: a
frame-ready, a tick broadcast and a raw passthrough. -/
def c8Evs : List Event := [Event.registerFrameEv ⟨"5"⟩, Event.tick, Event.rawData [1]]

/-- C8: when a connection reports disconnection it is removed from
the connection set, and no write of any later sequence of events —
tick broadcasts and raw passthroughs included — targets it again
(socket identities are never reused: fresh connections take
identities at or above the allocator counter). -/
theorem c8_disconnect_forever (s : ServerState) (sid : Nat)
    (evs : List Event) (hg : Good s) (hlt : sid < s.nextId) :
    sid ∉ socketIds (step s (Event.disconnect sid)).1
    ∧ msgsTo sid (run (step s (Event.disconnect sid)).1 evs).2 = [] := by
  have hrem : sid ∉ socketIds (step s (Event.disconnect sid)).1 := by
    show sid ∉ socketIdsL (removeConnLoop sid s.sockets 0)
    exact removeConnLoop_not_mem sid s.sockets 0 hg.1 (by simp [socketIdsL])
  have hnid : (step s (Event.disconnect sid)).1.nextId = s.nextId := rfl
  exact ⟨hrem, run_msgsTo_nil sid evs _ hrem (by rw [hnid]; exact hlt)⟩

/-- Witness for C8 at a concrete state, disconnecting connection 0
and then running a frame registration, a tick and a raw chunk. -/
theorem c8_witness :
    0 ∉ socketIds (step c8St (Event.disconnect 0)).1
    ∧ msgsTo 0 (run (step c8St (Event.disconnect 0)).1 c8Evs).2 = [] :=
  c8_disconnect_forever c8St 0 c8Evs ⟨by decide, by decide⟩ (by decide)

end Plugins.Server
